import Mathlib

/-!
Verification of the rollout-and-objective engine of the deep hedging gym
(`gym.py`, class `VanillaDeepHedgingGym`).

The engine is embedded shallowly:

* tensors are nested lists over a linear ordered field `α` (exact value
  semantics; rationals instantiate every executable witness, reals
  instantiate the soft-clip squashing function of `tfp.bijectors.SoftClip`,
  which is transcendental);
* a separate small IEEE-style scalar type `FP` (finite rational, NaN, ±Inf)
  models the float-level behaviour of `_clip_actions` (division by a
  zero-width bound interval, `tf.debugging.check_numerics`);
* fallible code (`_log.verify`, `tf.debugging.assert_*`, shape mismatches,
  `check_numerics`) returns `Except Err`;
* the policy (`self.agent`), and the two monetary-utility instances
  (`self.utility`, `self.utility0`) are external collaborators and enter as
  function parameters.
-/

/-- Fault taxonomy of the engine: `_log.verify` shape faults, the
`tf.debugging.assert_*` bound-ordering faults, `check_numerics` faults,
Python-level type faults (set subscription / non-tensor argument) and
out-of-range tensor slicing. -/
inductive Err where
  | shapeError : Err
  | boundsError : Err
  | numericalError : Err
  | typeError : Err
  | indexError : Err
deriving DecidableEq

deriving instance DecidableEq for Except

/-- Rank-1 tensor `[B]` as a list. -/
abbrev T1 (α : Type) := List α

/-- Rank-2 tensor `[B,N]` as a nested list. -/
abbrev T2 (α : Type) := List (List α)

/-- Rank-3 tensor `[B,T,N]` as a nested list. -/
abbrev T3 (α : Type) := List (List (List α))

/-- A dynamically typed value flowing through the feature dictionaries:
a tensor of rank 1, 2 or 3, or a Python string (the `per_path` set
comprehension of `_features` produces strings, see `perPathNorm`). -/
inductive TData (α : Type) where
  | t1 : T1 α → TData α
  | t2 : T2 α → TData α
  | t3 : T3 α → TData α
  | str : String → TData α
deriving DecidableEq

/-- `x.shape.as_list() == [b, n]` for a rank-2 tensor (TF tensors are
rectangular, so shape equality is: `b` rows, each of length `n`). -/
def isShape2 {α : Type} (x : T2 α) (b n : ℕ) : Bool :=
  x.length == b && x.all (fun r => r.length == n)

/-- `x.shape.as_list() == [b, t, n]` for a rank-3 tensor. -/
def isShape3 {α : Type} (x : T3 α) (b t n : ℕ) : Bool :=
  x.length == b && x.all (fun q => q.length == t && q.all (fun r => r.length == n))

/-- The `(nBatch, nSteps, nInst)` geometry read off `data['market']['hedges']`
(lines 126-130).  A TF tensor always has a well formed shape; a ragged nested
list has none and is rejected. -/
def shape3 {α : Type} (x : T3 α) : Option (ℕ × ℕ × ℕ) :=
  let b := x.length
  let t := (x.headD []).length
  let n := ((x.headD []).headD []).length
  if isShape3 x b t n then some (b, t, n) else none

/-- Slice `x[:, t, :]` of a `[B,T,N]` tensor. -/
def slice3 {α : Type} (x : T3 α) (t : ℕ) : T2 α :=
  x.map (fun q => q.getD t [])

/-- Elementwise zip of three lists (used for the per-element clip of an
action tensor against the two bound tensors). -/
def zipWith3 {α β γ δ : Type} (f : α → β → γ → δ) : List α → List β → List γ → List δ
  | a :: as, b :: bs, c :: cs => f a b c :: zipWith3 f as bs cs
  | _, _, _ => []

/-- Elementwise map of a binary operation over two rank-2 tensors. -/
def zipT2 {α : Type} (f : α → α → α) (x y : T2 α) : T2 α :=
  List.zipWith (fun r s => List.zipWith f r s) x y

/-- Elementwise map of a ternary operation over three rank-2 tensors. -/
def zipT2With3 {α : Type} (f : α → α → α → α) (x y z : T2 α) : T2 α :=
  zipWith3 (fun r s u => zipWith3 f r s u) x y z

/-- Elementwise boolean test over two rank-2 tensors (the tensor-level
`tf.debugging.assert_greater_equal(ubnd_a, lbnd_a)`). -/
def all2 {α : Type} (p : α → α → Bool) (x y : T2 α) : Bool :=
  (x.zip y).all (fun rs => (rs.1.zip rs.2).all (fun ab => p ab.1 ab.2))

/-- Elementwise boolean test of a rank-2 tensor against a scalar
(`assert_greater_equal(ubnd_a, 0.)`, `assert_less_equal(lbnd_a, 0.)`). -/
def allT2 {α : Type} (p : α → Bool) (x : T2 α) : Bool :=
  x.all (fun r => r.all p)

/-- Python `dict` update of a single key: replace the value if the key is
present, append otherwise. -/
def updF {β : Type} (m : List (String × β)) (k : String) (v : β) : List (String × β) :=
  if m.any (fun p => p.1 == k) then
    m.map (fun p => if p.1 == k then (k, v) else p)
  else m ++ [(k, v)]

/-- Python `dict.update`: fold `updF` over the new entries. -/
def updAll {β : Type} (m : List (String × β)) (xs : List (String × β)) : List (String × β) :=
  xs.foldl (fun acc p => updF acc p.1 p.2) m

/-- Configuration of the gym relevant to the rollout (lines 49-53):
`hard_clip`, `outer_clip`, `outer_clip_cut_off`, and the squashing function
`self.softclip` (in the source a `tfp.bijectors.SoftClip(low=0, high=1,
hinge_softness)`; here an arbitrary scalar function parameter, instantiated
by `realSoftclip` over the reals). -/
structure Config (α : Type) where
  hard_clip : Bool
  outer_clip : Bool
  outer_clip_cut_off : α
  softclip : α → α

/-- Elementwise body of `_clip_actions` (lines 235-255) over an exact scalar
field: hard clip is `min`/`max`; the soft branch optionally hard-clips at
`outer_clip_cut_off` times the bounds, rescales into `[0,1]`, squashes, and
rescales back, with `tf.where(dbnd > 0., rel*dbnd + lbnd, 0.)` guarding the
zero-width interval.  `check_numerics` is the identity on exact values; its
float-level effect is modelled by `clipFP` below. -/
def clip1 {α : Type} [LinearOrderedField α] (cfg : Config α) (a l u : α) : α :=
  if cfg.hard_clip then
    max (min a u) l
  else
    let a1 := if cfg.outer_clip then
        max (min a (u * cfg.outer_clip_cut_off)) (l * cfg.outer_clip_cut_off)
      else a
    let dbnd := u - l
    let rel := (a1 - l) / dbnd
    let rel2 := cfg.softclip rel
    if 0 < dbnd then rel2 * dbnd + l else 0

/-- `_clip_actions` on a `[B,N]` action tensor against the `[B,N]` bound
slices: the three `tf.debugging.assert_*` preconditions (lines 231-233) are
checked on every call, then the elementwise clip is applied. -/
def clipActions {α : Type} [LinearOrderedField α] (cfg : Config α)
    (acts ls us : T2 α) : Except Err (T2 α) :=
  if all2 (fun u l => decide (l ≤ u)) us ls then
    if allT2 (fun u => decide ((0 : α) ≤ u)) us then
      if allT2 (fun l => decide (l ≤ (0 : α))) ls then
        .ok (zipT2With3 (clip1 cfg) acts ls us)
      else .error .boundsError
    else .error .boundsError
  else .error .boundsError

/-! ### Float-level model of `_clip_actions`

`FP` is an IEEE-style scalar: a finite value (exact rational), `nan`, or a
signed infinity.  The operations follow TensorFlow elementwise semantics
(`tf.minimum`/`tf.maximum` propagate NaN; comparisons with NaN are false;
`0/0` and `0*inf` are NaN; `x/0 = ±inf` for finite `x ≠ 0`). -/

/-- IEEE-style scalar: finite (exact rational), NaN, or a signed infinity. -/
inductive FP where
  | fin : ℚ → FP
  | nan : FP
  | inf : FP
  | neginf : FP
deriving DecidableEq

namespace FP

/-- A value is finite iff it is neither NaN nor infinite
(`tf.debugging.check_numerics` accepts exactly the finite values). -/
def isFinite : FP → Bool
  | .fin _ => true
  | _ => false

/-- IEEE addition. -/
def fadd : FP → FP → FP
  | .nan, _ => .nan
  | _, .nan => .nan
  | .inf, .neginf => .nan
  | .neginf, .inf => .nan
  | .inf, _ => .inf
  | _, .inf => .inf
  | .neginf, _ => .neginf
  | _, .neginf => .neginf
  | .fin a, .fin b => .fin (a + b)

/-- IEEE subtraction. -/
def fsub : FP → FP → FP
  | .nan, _ => .nan
  | _, .nan => .nan
  | .inf, .inf => .nan
  | .neginf, .neginf => .nan
  | .inf, _ => .inf
  | _, .inf => .neginf
  | .neginf, _ => .neginf
  | _, .neginf => .inf
  | .fin a, .fin b => .fin (a - b)

/-- IEEE multiplication (`0 * ±inf = nan`). -/
def fmul : FP → FP → FP
  | .nan, _ => .nan
  | _, .nan => .nan
  | .inf, .inf => .inf
  | .inf, .neginf => .neginf
  | .neginf, .inf => .neginf
  | .neginf, .neginf => .inf
  | .inf, .fin b => if b = 0 then .nan else if 0 < b then .inf else .neginf
  | .fin a, .inf => if a = 0 then .nan else if 0 < a then .inf else .neginf
  | .neginf, .fin b => if b = 0 then .nan else if 0 < b then .neginf else .inf
  | .fin a, .neginf => if a = 0 then .nan else if 0 < a then .neginf else .inf
  | .fin a, .fin b => .fin (a * b)

/-- IEEE division (`0/0 = nan`, finite `x/0 = ±inf`, `±inf/±inf = nan`). -/
def fdiv : FP → FP → FP
  | .nan, _ => .nan
  | _, .nan => .nan
  | .inf, .inf => .nan
  | .inf, .neginf => .nan
  | .neginf, .inf => .nan
  | .neginf, .neginf => .nan
  | .inf, .fin b => if 0 ≤ b then .inf else .neginf
  | .neginf, .fin b => if 0 ≤ b then .neginf else .inf
  | .fin _, .inf => .fin 0
  | .fin _, .neginf => .fin 0
  | .fin a, .fin b =>
    if b = 0 then (if a = 0 then .nan else if 0 < a then .inf else .neginf)
    else .fin (a / b)

/-- `tf.minimum` (NaN propagates). -/
def fmin : FP → FP → FP
  | .nan, _ => .nan
  | _, .nan => .nan
  | .inf, y => y
  | x, .inf => x
  | .neginf, _ => .neginf
  | _, .neginf => .neginf
  | .fin a, .fin b => .fin (min a b)

/-- `tf.maximum` (NaN propagates). -/
def fmax : FP → FP → FP
  | .nan, _ => .nan
  | _, .nan => .nan
  | .neginf, y => y
  | x, .neginf => x
  | .inf, _ => .inf
  | _, .inf => .inf
  | .fin a, .fin b => .fin (max a b)

/-- IEEE `≤` (false whenever an operand is NaN). -/
def fle : FP → FP → Bool
  | .nan, _ => false
  | _, .nan => false
  | .neginf, _ => true
  | _, .inf => true
  | .inf, _ => false
  | _, .neginf => false
  | .fin a, .fin b => decide (a ≤ b)

/-- IEEE `<` (false whenever an operand is NaN). -/
def flt : FP → FP → Bool
  | .nan, _ => false
  | _, .nan => false
  | .inf, _ => false
  | _, .neginf => false
  | .neginf, _ => true
  | _, .inf => true
  | .fin a, .fin b => decide (a < b)

end FP

/-- Float-level soft-clip path of `_clip_actions` (lines 243-255): the
optional outer guard, the rescale into `[0,1]`, the squash, and the
`tf.where(dbnd > 0., rel*dbnd + lbnd, 0.)` guard of the zero-width
interval. -/
def softAct (cfg : Config FP) (a l u : FP) : FP :=
  let a1 := if cfg.outer_clip then
      FP.fmax (FP.fmin a (FP.fmul u cfg.outer_clip_cut_off))
        (FP.fmul l cfg.outer_clip_cut_off)
    else a
  let dbnd := FP.fsub u l
  let rel := FP.fdiv (FP.fsub a1 l) dbnd
  let rel2 := cfg.softclip rel
  if FP.flt (.fin 0) dbnd then FP.fadd (FP.fmul rel2 dbnd) l else .fin 0

/-- Float-level elementwise model of `_clip_actions` (lines 228-257): the
three bound assertions, then either the hard clip (lines 239-241, returning
with no finiteness check) or the soft path `softAct` (lines 243-255) whose
result passes through `tf.debugging.check_numerics` (line 256). -/
def clipFP (cfg : Config FP) (a l u : FP) : Except Err FP :=
  if FP.fle l u then
    if FP.fle (.fin 0) u then
      if FP.fle l (.fin 0) then
        if cfg.hard_clip then
          .ok (FP.fmax (FP.fmin a u) l)
        else
          if (softAct cfg a l u).isFinite then .ok (softAct cfg a l u)
          else .error .numericalError
      else .error .boundsError
    else .error .boundsError
  else .error .boundsError

/-! ### Feature assembler (`_features`, lines 259-282) -/

/-- Modelled from the spec: `tf_make_dim` comes from the repository's `base`
module, which is not among the sources; per §4.2 of the spec it normalizes a
tensor to the requested rank, "broadcasting/reshaping a missing trailing axis
to M=1" and back-flattening extra trailing axes, and it is a tensor
operation, so a non-tensor argument (such as the string keys produced by the
`per_path` set comprehension of line 281) is a fault. -/
def tf_make_dim {α : Type} : TData α → ℕ → Except Err (TData α)
  | .str _, _ => .error .typeError
  | .t1 v, 1 => .ok (.t1 v)
  | .t1 v, 2 => .ok (.t2 (v.map (fun x => [x])))
  | .t1 v, 3 => .ok (.t3 (v.map (fun x => [[x]])))
  | .t2 q, 2 => .ok (.t2 q)
  | .t2 q, 3 => .ok (.t3 (q.map (fun r => r.map (fun x => [x]))))
  | .t3 w, 2 => .ok (.t2 (w.map (fun q => q.flatten)))
  | .t3 w, 3 => .ok (.t3 w)
  | _, _ => .error .shapeError

/-- The `per_step` half of `_features` (lines 271-278): for each feature,
assert it is a tensor (line 275), verify rank at least 2 (line 276), verify
the second axis equals the step count (line 277), and normalize to rank 3
via `tf_make_dim`. -/
def perStepNorm {α : Type} (T : ℕ) :
    List (String × TData α) → Except Err (List (String × T3 α))
  | [] => .ok []
  | (f, x) :: rest =>
    match x with
    | .str _ => .error .typeError
    | .t1 _ => .error .shapeError
    | .t2 q =>
      if q.all (fun r => r.length == T) then
        match tf_make_dim (TData.t2 q) 3 with
        | .ok (.t3 w) =>
          match perStepNorm T rest with
          | .ok out => .ok ((f, w) :: out)
          | .error e => .error e
        | _ => .error .typeError
      else .error .shapeError
    | .t3 w =>
      if w.all (fun r => r.length == T) then
        match tf_make_dim (TData.t3 w) 3 with
        | .ok (.t3 w2) =>
          match perStepNorm T rest with
          | .ok out => .ok ((f, w2) :: out)
          | .error e => .error e
        | _ => .error .typeError
      else .error .shapeError

/-- The `per_path` half of `_features` — source line 281:

`features_per_path = { tf_make_dim( _, dim=2 ) for _ in features_per_path_i }`

This is a Python set comprehension, and iterating a `dict` yields its KEYS,
so `tf_make_dim` is applied to each key string and the result is a set of
transformed keys, not a mapping of normalized tensors. -/
def perPathNorm {α : Type} : List (String × TData α) → Except Err (List (TData α))
  | [] => .ok []
  | (f, _) :: rest =>
    match tf_make_dim (α := α) (TData.str f) 2 with
    | .ok y =>
      match perPathNorm rest with
      | .ok out => .ok (y :: out)
      | .error e => .error e
    | .error e => .error e

/-- `_features(data, nSteps)` (lines 259-282): normalize `per_step`, then
build the `per_path` set. -/
def gymFeatures {α : Type} (perStep perPath : List (String × TData α)) (T : ℕ) :
    Except Err (List (String × T3 α) × List (TData α)) :=
  match perStepNorm T perStep with
  | .error e => .error e
  | .ok ps =>
    match perPathNorm perPath with
    | .error e => .error e
    | .ok pp => .ok (ps, pp)

/-- Lines 166 and 199 subscript `features_per_path` —
`{ f:features_per_path[f] for f in features_per_path }` — but
`features_per_path` is the SET built on line 281; subscripting a Python set
raises `TypeError`, except when the set is empty and the comprehension never
subscripts. -/
def setSubscriptMap {α : Type} (s : List (TData α)) :
    Except Err (List (String × TData α)) :=
  match s with
  | [] => .ok []
  | _ :: _ => .error .typeError

/-! ### Payoff normalization and rollout state -/

/-- Line 138: `payoff = payoff[:,0] if payoff.shape.as_list() == [nBatch,1]
else payoff`. -/
def flattenPayoff {α : Type} [Zero α] (p : TData α) (b : ℕ) : TData α :=
  match p with
  | .t2 q => if isShape2 q b 1 then .t1 (q.map (fun r => r.headD 0)) else .t2 q
  | x => x

/-- Composition of line 138 (flatten `[B,1]`) with the line 142 verify
(`payoff.shape.as_list() == [nBatch]`); the flatten itself cannot fault and
nothing reads `payoff` in between, so the composition is placed at the
line 142 check position. -/
def payVerify {α : Type} [Zero α] (p : TData α) (b : ℕ) : Except Err (T1 α) :=
  match flattenPayoff p b with
  | .t1 v => if v.length == b then .ok v else .error .shapeError
  | _ => .error .shapeError

/-- The payoff shapes the engine accepts: exactly `[B]` and `[B,1]`. -/
def payShapeOK {α : Type} (p : TData α) (b : ℕ) : Bool :=
  match p with
  | .t1 v => v.length == b
  | .t2 q => isShape2 q b 1
  | _ => false

/-- The policy collaborator (§6 of the spec; `self.agent`): the recurrency
flag and state feature name, the initial recurrent state (shape `[nStates]`,
broadcast across the batch on line 158), and the callable
`features ↦ (action, new_state)`. -/
structure Agent (α : Type) where
  is_recurrent : Bool
  state_feature_name : String
  init_state : List α
  act : List (String × TData α) → T2 α × TData α

/-- The monetary-utility collaborator (§6): `(features_time_0, payoff, pnl,
cost) ↦ utility[B]`.  `self.utility` and `self.utility0` are two
independently parameterized instances, so they enter `gymCall` as two
separate function parameters. -/
abbrev Utility (α : Type) := List (String × TData α) → T1 α → T1 α → T1 α → T1 α

/-- Mutable rollout state of the main loop (lines 152-158): cumulative
`pnl[B]`, `cost[B]`, `delta[B,N]`, last action `[B,N]`, the recorded action
history `[B,t,N]`, and the recurrent state. -/
structure LoopState (α : Type) where
  pnl : T1 α
  cost : T1 α
  delta : T2 α
  action : T2 α
  actions : T3 α
  state : TData α
deriving DecidableEq

/-- The input bundle of `call` (lines 125-147): the five market tensors and
the two feature mappings. -/
structure GymData (α : Type) where
  hedges : TData α
  cost : TData α
  ubnd_a : TData α
  lbnd_a : TData α
  payoff : TData α
  per_step : List (String × TData α)
  per_path : List (String × TData α)

/-- The result bundle (lines 213-222).  `tf.stop_gradient` is the identity
on values, so the detached fields carry the same values as the live ones. -/
structure Result (α : Type) where
  loss : T1 α
  utility : T1 α
  utility0 : T1 α
  gains : T1 α
  payoff : T1 α
  pnl : T1 α
  cost : T1 α
  actions : T3 α
deriving DecidableEq

/-- The live feature dictionary of one loop iteration (lines 165-170): the
running `action`, `delta`, `cost`, `pnl`, updated with the (subscripted)
per-path features, the per-step features sliced at `t`, the re-set `delta`
and `action` (lines 168-169 restore them after a same-named feature may have
overwritten them), and — iff the policy is recurrent — the tracked state
under the policy's state feature name. -/
def liveFeatures {α : Type} (A : Agent α) (ps : List (String × T3 α))
    (ppm : List (String × TData α)) (t : ℕ) (s : LoopState α) :
    List (String × TData α) :=
  let live0 : List (String × TData α) :=
    [("action", TData.t2 s.action), ("delta", TData.t2 s.delta),
     ("cost", TData.t1 s.cost), ("pnl", TData.t1 s.pnl)]
  let live1 := updAll live0 ppm
  let live2 := updAll live1 (ps.map (fun fx => (fx.1, TData.t2 (slice3 fx.2 t))))
  let live3 := updF (updF live2 "delta" (TData.t2 s.delta)) "action" (TData.t2 s.action)
  if A.is_recurrent then updF live3 A.state_feature_name s.state else live3

/-- One iteration of the main loop (lines 161-190): assemble the live
feature dictionary (165-170) via `liveFeatures`, invoke the policy (173),
verify the action shape is `[nBatch, nInst]` or `[1, nInst]` (174),
broadcast a `[1,N]` action across the batch (performed inside the TF
broadcasting of `_clip_actions` in the source; explicit here), clip (176),
replace recurrent state iff the policy is recurrent (177), accumulate
`delta` (178), record the action (181-182), and accumulate `cost` and `pnl`
(185-186). -/
def gymStep {α : Type} [LinearOrderedField α] (cfg : Config α) (A : Agent α)
    (B N : ℕ) (hed c lb ub : T3 α) (ps : List (String × T3 α))
    (pp : List (TData α)) (t : ℕ) (s : LoopState α) : Except Err (LoopState α) :=
  match setSubscriptMap pp with
  | .error e => .error e
  | .ok ppm =>
    let live := liveFeatures A ps ppm t s
    let ar := A.act live
    let aRaw := ar.1
    if isShape2 aRaw B N || isShape2 aRaw 1 N then
      let action1 := if aRaw.length == 1 then List.replicate B (aRaw.headD []) else aRaw
      match clipActions cfg action1 (slice3 lb t) (slice3 ub t) with
      | .error e => .error e
      | .ok action2 =>
        let state2 := if A.is_recurrent then ar.2 else s.state
        let delta2 := zipT2 (fun x y => x + y) s.delta action2
        let actions2 := if t > 0 then
            List.zipWith (fun q r => q ++ r) s.actions (action2.map (fun r => [r]))
          else action2.map (fun r => [r])
        let cost2 := List.zipWith (fun x y => x + y) s.cost
          (List.zipWith (fun arow crow => (List.zipWith (fun a cc => |a| * cc) arow crow).sum)
            action2 (slice3 c t))
        let pnl2 := List.zipWith (fun x y => x + y) s.pnl
          (List.zipWith (fun arow hrow => (List.zipWith (fun a h => a * h) arow hrow).sum)
            action2 (slice3 hed t))
        .ok { pnl := pnl2, cost := cost2, delta := delta2, action := action2,
              actions := actions2, state := state2 }
    else .error .shapeError

/-- The main loop (lines 160-190), "logically equivalent to:
`for t in range(nSteps)`": run `k` more steps starting at step index `t`. -/
def runSteps {α : Type} [LinearOrderedField α] (cfg : Config α) (A : Agent α)
    (B N : ℕ) (hed c lb ub : T3 α) (ps : List (String × T3 α))
    (pp : List (TData α)) : ℕ → ℕ → LoopState α → Except Err (LoopState α)
  | 0, _, s => .ok s
  | k + 1, t, s =>
    match gymStep cfg A B N hed c lb ub ps pp t s with
    | .error e => .error e
    | .ok s1 => runSteps cfg A B N hed c lb ub ps pp k (t + 1) s1

/-- Initial rollout state (lines 152-158): `pnl`, `cost` are
`zeros_like(payoff)`; `delta`, `action` are `zeros_like(trading_cost[:,0,:])`;
`actions` is the `[B,1,N]` zero seed (discarded at `t = 0` by line 182); the
recurrent state is `init_state` broadcast across the batch if the agent is
recurrent and `zeros_like(pnl)` otherwise.  The verified geometry makes
these `replicate` forms the tensor values. -/
def initState {α : Type} [LinearOrderedField α] (A : Agent α) (B N : ℕ) : LoopState α :=
  { pnl := List.replicate B 0
    cost := List.replicate B 0
    delta := List.replicate B (List.replicate N 0)
    action := List.replicate B (List.replicate N 0)
    actions := List.replicate B [List.replicate N 0]
    state := if A.is_recurrent then TData.t2 (List.replicate B A.init_state)
             else TData.t1 (List.replicate B 0) }

/-- `features_time_0` (lines 198-200): an empty dict updated with the
`per_path` features and with every `per_step` feature sliced at `t = 0`. -/
def featuresT0 {α : Type} (ppm : List (String × TData α))
    (ps : List (String × T3 α)) : List (String × TData α) :=
  updAll (updAll [] ppm) (ps.map (fun fx => (fx.1, TData.t2 (slice3 fx.2 0))))

/-- The output bundle (lines 202-222): the two utility invocations (with
`pnl*0.` and `cost*0.` for the baseline) and the assembled result.
`tf.stop_gradient` is the identity on values, and `tf.concat` of the single
`actions` tensor (line 221) is the tensor itself. -/
def mkResult {α : Type} [LinearOrderedField α] (U U0 : Utility α)
    (ft0 : List (String × TData α)) (pay : T1 α) (s : LoopState α) : Result α :=
  let utility := U ft0 pay s.pnl s.cost
  let utility0 := U0 ft0 pay (s.pnl.map (fun x => x * 0)) (s.cost.map (fun x => x * 0))
  { loss := List.zipWith (fun x y => -x - y) utility utility0
    utility := utility
    utility0 := utility0
    gains := zipWith3 (fun p pn cc => p + pn - cc) pay s.pnl s.cost
    payoff := pay
    pnl := s.pnl
    cost := s.cost
    actions := s.actions }

/-- `_call` (lines 118-222): geometry from `hedges` (126-130), market-tensor
shape verifies (139-142) with the payoff flatten (138), the feature
assembler (146-147), the initial state (152-158) — whose
`trading_cost[:,0,:]` slice faults when the step dimension is zero — the
main loop (160-190), and the objective/result assembly (198-222).
`check_numerics` on `pnl`/`cost` (192-193) is the identity in exact value
semantics. -/
def gymCall {α : Type} [LinearOrderedField α] (cfg : Config α) (A : Agent α)
    (U U0 : Utility α) (d : GymData α) : Except Err (Result α) :=
  match d.hedges with
  | .t3 h =>
    (match shape3 h with
     | some (B, T, N) =>
       (match d.cost with
        | .t3 c =>
          if isShape3 c B T N then
            (match d.ubnd_a with
             | .t3 ub =>
               if isShape3 ub B T N then
                 (match d.lbnd_a with
                  | .t3 lb =>
                    if isShape3 lb B T N then
                      (match payVerify d.payoff B with
                       | .ok pay =>
                         (match gymFeatures d.per_step d.per_path T with
                          | .ok (ps, pp) =>
                            if T == 0 then .error .indexError
                            else
                              (match runSteps cfg A B N h c lb ub ps pp T 0
                                  (initState A B N) with
                               | .error e => .error e
                               | .ok sT =>
                                 (match setSubscriptMap pp with
                                  | .error e => .error e
                                  | .ok ppm =>
                                    .ok (mkResult U U0 (featuresT0 ppm ps) pay sT)))
                          | .error e => .error e)
                       | .error e => .error e)
                    else .error .shapeError
                  | _ => .error .shapeError)
               else .error .shapeError
             | _ => .error .shapeError)
          else .error .shapeError
        | _ => .error .shapeError)
     | none => .error .shapeError)
  | _ => .error .shapeError

/-! ### The actual squashing function: `tfp.bijectors.SoftClip(low=0, high=1)`

The TFP bijector with `hinge_softness = c` computes
`x ↦ high - softplus(high - low - softplus(x - low)) * (high - low) /
softplus(high - low)` with the `c`-scaled softplus
`y ↦ c * log(1 + exp(y / c))`; with `low = 0`, `high = 1` as constructed on
line 53 this is `realSoftclip` below. -/

/-- Softplus with hinge softness `c`: `c * log(1 + exp(y / c))`. -/
noncomputable def softplusH (c y : ℝ) : ℝ := c * Real.log (1 + Real.exp (y / c))

/-- `tfp.bijectors.SoftClip(low=0., high=1., hinge_softness=c)` forward map. -/
noncomputable def realSoftclip (c x : ℝ) : ℝ :=
  1 - softplusH c (1 - softplusH c x) / softplusH c 1

/-! ### Concrete instances driving the executable witnesses -/

/-- Hard-clip configuration over the rationals (squash irrelevant). -/
def cfgHard : Config ℚ :=
  { hard_clip := true, outer_clip := true,
    outer_clip_cut_off := 10, softclip := id }

/-- Soft-clip configuration over the rationals whose squash is the constant
`1/2` (a valid squash: it maps into `[0,1]`). -/
def cfgSoftHalf : Config ℚ :=
  { hard_clip := false, outer_clip := true,
    outer_clip_cut_off := 10, softclip := fun _ => 1/2 }

/-- Soft-clip configuration over the rationals whose squash is the identity. -/
def cfgSoftId : Config ℚ :=
  { hard_clip := false, outer_clip := true,
    outer_clip_cut_off := 10, softclip := id }

/-- A stateless policy that always answers the zero `[1,1]` raw action. -/
def agentZero : Agent ℚ :=
  { is_recurrent := false, state_feature_name := "h",
    init_state := [], act := fun _ => ([[0]], TData.t1 []) }

/-- A stateless policy that always answers the raw action `[[1/2]]`. -/
def agentHalf : Agent ℚ :=
  { is_recurrent := false, state_feature_name := "h",
    init_state := [], act := fun _ => ([[1/2]], TData.t1 []) }

/-- A stateless policy that always answers a mis-shaped `[1,2]` raw action
(for a batch of one instrument). -/
def agentBadShape : Agent ℚ :=
  { is_recurrent := false, state_feature_name := "h",
    init_state := [], act := fun _ => ([[1, 2]], TData.t1 []) }

/-- A constant utility collaborator. -/
def Uconst5 : Utility ℚ := fun _ _ _ _ => [5]

/-- A second constant utility collaborator. -/
def Uconst7 : Utility ℚ := fun _ _ _ _ => [7]

/-- A utility collaborator honouring the §6 contract `payoff[B] ↦
utility[B]` (output batch length equals the payoff batch length). -/
def Ulen : Utility ℚ := fun _ p _ _ => p.map (fun _ => 5)

/-- A second contract-honouring utility collaborator. -/
def Ulen9 : Utility ℚ := fun _ p _ _ => p.map (fun _ => 9)

/-- Concrete valid one-path, one-step, one-instrument market batch:
`hedges = [[[2]]]`, `cost = [[[1]]]`, `ubnd = [[[1]]]`, `lbnd = [[[-1]]]`,
`payoff = [3]`, no extra features. -/
def dataW : GymData ℚ :=
  { hedges := .t3 [[[2]]], cost := .t3 [[[1]]], ubnd_a := .t3 [[[1]]],
    lbnd_a := .t3 [[[-1]]], payoff := .t1 [3], per_step := [], per_path := [] }

/-- The soft-clip configuration of the source defaults over the reals:
`hard_clip = False`, `outer_clip = True`, `outer_clip_cut_off = 10`,
`softclip_hinge_softness = 1`. -/
noncomputable def cfgR : Config ℝ :=
  { hard_clip := false, outer_clip := true,
    outer_clip_cut_off := 10, softclip := realSoftclip 1 }

/-- The zero-raw-action policy over the reals. -/
def agentZeroR : Agent ℝ :=
  { is_recurrent := false, state_feature_name := "h",
    init_state := [], act := fun _ => ([[0]], TData.t1 []) }

/-- A constant real utility collaborator. -/
def UzeroR : Utility ℝ := fun _ _ _ _ => [0]

/-- Real market batch for the C1 counterexample: one path, one step, one
instrument, hedge return `1`, zero trading cost, bounds `[0, 1]`
(admissible: `lbnd ≤ 0 ≤ ubnd`), payoff `0`. -/
def dataR : GymData ℝ :=
  { hedges := .t3 [[[1]]], cost := .t3 [[[0]]], ubnd_a := .t3 [[[1]]],
    lbnd_a := .t3 [[[0]]], payoff := .t1 [0], per_step := [], per_path := [] }

/-- The policy with its action broadcast across the batch, as TF
broadcasting does for a `[1,N]` action inside `_clip_actions`. -/
def broadcastB {α : Type} (B : ℕ) (A : Agent α) : Agent α :=
  { A with act := fun f => (List.replicate B ((A.act f).1.headD []), (A.act f).2) }

/-- The result bundle of the `agentHalf` hard-clip rollout over `dataW` with
the `Ulen`/`Ulen9` collaborators. -/
def resultHalf : Result ℚ := ⟨[-14], [5], [9], [7/2], [3], [1], [1/2], [[[1/2]]]⟩

/-- The result bundle of the `agentZero` hard-clip rollout over `dataW` with
the `Uconst5`/`Ulen9` collaborators. -/
def resultZero : Result ℚ := ⟨[-14], [5], [9], [3], [3], [0], [0], [[[0]]]⟩

/-- Shape invariant of the main loop after `m` completed steps: `pnl` and
`cost` have batch length `B` and the recorded history has shape
`[B, max m 1, N]` (the `[B,1,N]` zero seed of line 156 before the first step
is overwritten at `t = 0` by line 182). -/
def SInv {α : Type} (B N m : ℕ) (s : LoopState α) : Prop :=
  s.pnl.length = B ∧ s.cost.length = B ∧ isShape3 s.actions B (max m 1) N = true

/-! ### Theorems -/

/-- C3: for every step and raw action, with bounds satisfying `ubnd ≥ lbnd`,
`ubnd ≥ 0`, `lbnd ≤ 0`, and the squash mapping into `[0,1]` (which the TFP
`SoftClip(low=0, high=1)` does, see `realSoftclip_mem`), the clipped action
of `_clip_actions` lies in `[lbnd, ubnd]`, in hard-clip mode and in
soft-clip mode (after the outer-guard pass and rescaling). -/
theorem C3_clip_bounds {α : Type} [LinearOrderedField α] (cfg : Config α)
    (a l u : α) (hlu : l ≤ u) (hu : 0 ≤ u) (hl : l ≤ 0)
    (hsq : ∀ x, 0 ≤ cfg.softclip x ∧ cfg.softclip x ≤ 1) :
    l ≤ clip1 cfg a l u ∧ clip1 cfg a l u ≤ u := by
  unfold clip1
  split
  · exact ⟨le_max_right _ _, max_le (min_le_right a u) hlu⟩
  · dsimp only
    split
    · rename_i hd
      obtain ⟨h0, h1⟩ := hsq
        (((if cfg.outer_clip then
            max (min a (u * cfg.outer_clip_cut_off)) (l * cfg.outer_clip_cut_off)
          else a) - l) / (u - l))
      constructor
      · nlinarith [mul_nonneg h0 (le_of_lt hd)]
      · nlinarith [mul_le_mul_of_nonneg_right h1 (le_of_lt hd)]
    · exact ⟨hl, hu⟩

/-- Witness for C3: the soft-clip configuration `cfgSoftHalf` with raw
action `5` and bounds `[-1, 1]`. -/
theorem C3_witness :
    (-1 : ℚ) ≤ clip1 cfgSoftHalf 5 (-1) 1 ∧ clip1 cfgSoftHalf 5 (-1) 1 ≤ 1 :=
  C3_clip_bounds cfgSoftHalf 5 (-1) 1 (by norm_num) (by norm_num) (by norm_num)
    (fun x => by constructor <;> norm_num [cfgSoftHalf])

/-- C4: in soft-clip mode, whenever `lbnd = ubnd` (under the sign
preconditions both are 0), the `tf.where(dbnd > 0., ..., 0.)` guard of
`_clip_actions` forces the clipped action at that position to exactly 0 —
never NaN — for EVERY raw action (finite, NaN or infinite) and every squash
output, and the `check_numerics` postcondition passes there. -/
theorem C4_degenerate_interval_zero (b : Bool) (K : FP) (sq : FP → FP) (a : FP) :
    clipFP { hard_clip := false, outer_clip := b, outer_clip_cut_off := K,
             softclip := sq } a (.fin 0) (.fin 0) = .ok (.fin 0) := by
  norm_num [clipFP, softAct, FP.fle, FP.flt, FP.fsub, FP.isFinite]

/-- C5 counterexample: in hard-clip mode `_clip_actions` returns at line 241
BEFORE the `check_numerics` of line 256, so a NaN raw action inside the
bounds `[-1, 1]` is returned as NaN instead of failing fast. -/
theorem C5_counterexample :
    clipFP { hard_clip := true, outer_clip := true, outer_clip_cut_off := .fin 10,
             softclip := id } .nan (.fin (-1)) (.fin 1) = .ok .nan ∧
    FP.isFinite .nan = false := by decide

/-- C5 amended: the finiteness check applies in soft-clip mode only — there
every `ok` output of `_clip_actions` is finite and a non-finite clipped
value fails fast with the numerical-error fault (second conjunct: a squash
returning `inf` trips it); the hard-clip branch returns unchecked. -/
theorem C5_soft_mode_checks_finiteness (cfg : Config FP) (a l u v : FP)
    (hh : cfg.hard_clip = false) (hok : clipFP cfg a l u = .ok v) :
    v.isFinite = true ∧
    clipFP { hard_clip := false, outer_clip := false, outer_clip_cut_off := .fin 10,
             softclip := fun _ => .inf } (.fin 0) (.fin (-1)) (.fin 1) =
      .error .numericalError := by
  refine ⟨?_, by norm_num [clipFP, softAct, FP.fle, FP.flt, FP.fsub, FP.fdiv,
    FP.fmul, FP.fadd, FP.isFinite]⟩
  unfold clipFP at hok
  rw [hh] at hok
  simp only [Bool.false_eq_true, if_false] at hok
  split at hok
  · split at hok
    · split at hok
      · rcases hf : (softAct cfg a l u).isFinite with _ | _
        · rw [hf] at hok
          simp at hok
        · rw [hf] at hok
          simp only [if_true] at hok
          cases hok
          exact hf
      · exact absurd hok (by simp)
    · exact absurd hok (by simp)
  · exact absurd hok (by simp)

/-- Witness for C5 (amended): the soft configuration with identity squash on
raw action `0` with bounds `[-1, 1]` returns `ok (fin 0)`, which is finite. -/
theorem C5_witness :
    FP.isFinite (.fin 0) = true ∧
    clipFP { hard_clip := false, outer_clip := false, outer_clip_cut_off := .fin 10,
             softclip := fun _ => .inf } (.fin 0) (.fin (-1)) (.fin 1) =
      .error .numericalError :=
  C5_soft_mode_checks_finiteness
    { hard_clip := false, outer_clip := true, outer_clip_cut_off := .fin 10,
      softclip := id } (.fin 0) (.fin (-1)) (.fin 1) (.fin 0) rfl
    (by norm_num [clipFP, softAct, FP.fle, FP.flt, FP.fsub, FP.fdiv, FP.fmul,
      FP.fadd, FP.fmin, FP.fmax, FP.isFinite])

/-- C6 (code bug, line 281): `_features` builds the per-path collection as a
Python SET comprehension over the dict — i.e. over its KEY strings — so any
non-empty `per_path` mapping faults (the tensor op hits a string; even if it
did not, lines 166/199 subscript the set), while the documented behaviour
(docstring lines 266-267, spec §4.2) is a mapping of rank-2-normalized
tensors, as the `per_step` half (second conjunct) indeed produces. -/
theorem C6_per_path_set_comprehension_fault :
    gymFeatures ([] : List (String × TData ℚ)) [("x", TData.t1 [1, 2])] 1 =
      .error .typeError ∧
    gymFeatures [("f", TData.t2 [[(3 : ℚ)]])] ([] : List (String × TData ℚ)) 1 =
      .ok ([("f", [[[3]]])], []) := ⟨rfl, rfl⟩

/-- Softplus with positive hinge softness is positive. -/
theorem softplusH_pos (c y : ℝ) (hc : 0 < c) : 0 < softplusH c y := by
  unfold softplusH
  have h1 : (0 : ℝ) < Real.exp (y / c) := Real.exp_pos _
  exact mul_pos hc (Real.log_pos (by linarith))

/-- Softplus with positive hinge softness is strictly monotone. -/
theorem softplusH_lt (c : ℝ) (hc : 0 < c) {x y : ℝ} (h : x < y) :
    softplusH c x < softplusH c y := by
  unfold softplusH
  have h1 : x / c < y / c := (div_lt_div_iff_of_pos_right hc).mpr h
  have h2 : Real.exp (x / c) < Real.exp (y / c) := Real.exp_lt_exp.mpr h1
  have h3 : (0 : ℝ) < 1 + Real.exp (x / c) := by positivity
  exact mul_lt_mul_of_pos_left (Real.log_lt_log h3 (by linarith)) hc

/-- The TFP `SoftClip(low=0, high=1)` forward map lands strictly inside
`(0, 1)`; in particular it satisfies the `[0,1]` squash contract assumed by
the bound-respect theorem. -/
theorem realSoftclip_mem (c x : ℝ) (hc : 0 < c) :
    0 < realSoftclip c x ∧ realSoftclip c x < 1 := by
  unfold realSoftclip
  have hA : 0 < softplusH c (1 - softplusH c x) := softplusH_pos c _ hc
  have hB : 0 < softplusH c 1 := softplusH_pos c 1 hc
  have hAB : softplusH c (1 - softplusH c x) < softplusH c 1 :=
    softplusH_lt c hc (by linarith [softplusH_pos c x hc])
  have h1 : softplusH c (1 - softplusH c x) / softplusH c 1 < 1 :=
    (div_lt_one hB).mpr hAB
  have h2 : 0 < softplusH c (1 - softplusH c x) / softplusH c 1 := div_pos hA hB
  constructor <;> linarith

/-- Length of the ternary zip. -/
theorem zipWith3_length {α β γ δ : Type} (f : α → β → γ → δ) :
    ∀ (as : List α) (bs : List β) (cs : List γ),
      (zipWith3 f as bs cs).length = min as.length (min bs.length cs.length)
  | [], _, _ => by simp [zipWith3]
  | _ :: _, [], _ => by simp [zipWith3]
  | _ :: _, _ :: _, [] => by simp [zipWith3]
  | a :: as, b :: bs, c :: cs => by
    simp only [zipWith3, List.length_cons, zipWith3_length f as bs cs]
    omega

/-- Membership in a binary zip comes from members of the two lists. -/
theorem mem_zipWith {α β γ : Type} (f : α → β → γ) :
    ∀ (as : List α) (bs : List β) (z : γ), z ∈ List.zipWith f as bs →
      ∃ a ∈ as, ∃ b ∈ bs, z = f a b
  | [], _, _ => by simp
  | _ :: _, [], _ => by simp
  | a :: as, b :: bs, z => by
    intro hz
    simp only [List.zipWith_cons_cons, List.mem_cons] at hz
    rcases hz with rfl | hz
    · exact ⟨a, by simp, b, by simp, rfl⟩
    · obtain ⟨a2, ha, b2, hb, rfl⟩ := mem_zipWith f as bs z hz
      exact ⟨a2, by simp [ha], b2, by simp [hb], rfl⟩

/-- Membership in the ternary zip comes from members of the three lists. -/
theorem mem_zipWith3 {α β γ δ : Type} (f : α → β → γ → δ) :
    ∀ (as : List α) (bs : List β) (cs : List γ) (z : δ), z ∈ zipWith3 f as bs cs →
      ∃ a ∈ as, ∃ b ∈ bs, ∃ c ∈ cs, z = f a b c
  | [], _, _, _ => by simp [zipWith3]
  | _ :: _, [], _, _ => by simp [zipWith3]
  | _ :: _, _ :: _, [], _ => by simp [zipWith3]
  | a :: as, b :: bs, c :: cs, z => by
    intro hz
    simp only [zipWith3, List.mem_cons] at hz
    rcases hz with rfl | hz
    · exact ⟨a, by simp, b, by simp, c, by simp, rfl⟩
    · obtain ⟨a2, ha, b2, hb, c2, hc2, rfl⟩ := mem_zipWith3 f as bs cs z hz
      exact ⟨a2, by simp [ha], b2, by simp [hb], c2, by simp [hc2], rfl⟩

/-- Unfolding of the rank-2 shape test. -/
theorem isShape2_iff {α : Type} {x : T2 α} {b n : ℕ} :
    isShape2 x b n = true ↔ x.length = b ∧ ∀ r ∈ x, r.length = n := by
  simp [isShape2, List.all_eq_true]

/-- Unfolding of the rank-3 shape test. -/
theorem isShape3_iff {α : Type} {x : T3 α} {b t n : ℕ} :
    isShape3 x b t n = true ↔
      x.length = b ∧ ∀ q ∈ x, q.length = t ∧ ∀ r ∈ q, r.length = n := by
  simp [isShape3, List.all_eq_true]

/-- A step slice of a well-shaped `[B,T,N]` tensor is a `[B,N]` tensor. -/
theorem slice3_shape {α : Type} {x : T3 α} {B T N t : ℕ}
    (hx : isShape3 x B T N = true) (ht : t < T) :
    isShape2 (slice3 x t) B N = true := by
  rw [isShape3_iff] at hx
  rw [isShape2_iff]
  obtain ⟨hlen, hrows⟩ := hx
  constructor
  · simp [slice3, hlen]
  · intro r hr
    simp only [slice3, List.mem_map] at hr
    obtain ⟨q, hq, rfl⟩ := hr
    obtain ⟨hqT, hqN⟩ := hrows q hq
    have htq : t < q.length := by omega
    rw [List.getD_eq_getElem _ _ htq]
    exact hqN _ (List.getElem_mem htq)

/-- The elementwise ternary zip of three `[B,N]` tensors is `[B,N]`. -/
theorem zipT2With3_shape {α : Type} (f : α → α → α → α) {x y z : T2 α} {B N : ℕ}
    (hx : isShape2 x B N = true) (hy : isShape2 y B N = true)
    (hz : isShape2 z B N = true) :
    isShape2 (zipT2With3 f x y z) B N = true := by
  rw [isShape2_iff] at hx hy hz
  rw [isShape2_iff]
  constructor
  · rw [zipT2With3, zipWith3_length, hx.1, hy.1, hz.1]
    omega
  · intro r hr
    obtain ⟨a, ha, b, hb, c, hc2, rfl⟩ := mem_zipWith3 _ _ _ _ _ hr
    rw [zipWith3_length, hx.2 a ha, hy.2 b hb, hz.2 c hc2]
    omega

/-- Inversion of a successful `_clip_actions` call: the output is the
elementwise clip and the three bound assertions held. -/
theorem clipActions_ok_elim {α : Type} [LinearOrderedField α] {cfg : Config α}
    {acts ls us out : T2 α} (h : clipActions cfg acts ls us = .ok out) :
    out = zipT2With3 (clip1 cfg) acts ls us ∧
    all2 (fun u l => decide (l ≤ u)) us ls = true ∧
    allT2 (fun u => decide ((0 : α) ≤ u)) us = true ∧
    allT2 (fun l => decide (l ≤ (0 : α))) ls = true := by
  unfold clipActions at h
  split at h
  · split at h
    · split at h
      · cases h
        refine ⟨rfl, ?_, ?_, ?_⟩ <;> assumption
      · exact absurd h (by simp)
    · exact absurd h (by simp)
  · exact absurd h (by simp)

/-- Inversion of a successful loop iteration: the per-path set was empty
(otherwise line 166 faults), the policy action had an accepted shape, the
(broadcast) action was clipped successfully, and the new state fields are
the accumulation updates of lines 178-186. -/
theorem gymStep_ok_elim {α : Type} [LinearOrderedField α] {cfg : Config α}
    {A : Agent α} {B N : ℕ} {hed c lb ub : T3 α} {ps : List (String × T3 α)}
    {pp : List (TData α)} {t : ℕ} {s s2 : LoopState α}
    (h : gymStep cfg A B N hed c lb ub ps pp t s = .ok s2) :
    pp = [] ∧
    ∃ live action2,
      (isShape2 (A.act live).1 B N || isShape2 (A.act live).1 1 N) = true ∧
      clipActions cfg
        (if (A.act live).1.length == 1 then List.replicate B ((A.act live).1.headD [])
         else (A.act live).1) (slice3 lb t) (slice3 ub t) = .ok action2 ∧
      s2.pnl = List.zipWith (fun x y => x + y) s.pnl
        (List.zipWith (fun arow hrow => (List.zipWith (fun a h2 => a * h2) arow hrow).sum)
          action2 (slice3 hed t)) ∧
      s2.cost = List.zipWith (fun x y => x + y) s.cost
        (List.zipWith (fun arow crow => (List.zipWith (fun a cc => |a| * cc) arow crow).sum)
          action2 (slice3 c t)) ∧
      s2.action = action2 ∧
      s2.actions = (if t > 0 then
          List.zipWith (fun q r => q ++ r) s.actions (action2.map (fun r => [r]))
        else action2.map (fun r => [r])) := by
  unfold gymStep at h
  cases pp with
  | cons x xs => simp [setSubscriptMap] at h
  | nil =>
    simp only [setSubscriptMap] at h
    refine ⟨rfl, ?_⟩
    split at h
    · rename_i hsh
      rcases hcl : clipActions cfg
          (if ((A.act (liveFeatures A ps [] t s)).1.length == 1) = true then
            List.replicate B ((A.act (liveFeatures A ps [] t s)).1.headD [])
          else (A.act (liveFeatures A ps [] t s)).1)
          (slice3 lb t) (slice3 ub t) with e | a2
      · rw [hcl] at h
        exact absurd h (by simp)
      · rw [hcl] at h
        cases h
        exact ⟨_, a2, hsh, hcl, rfl, rfl, rfl, rfl⟩
    · exact absurd h (by simp)

/-- Preservation of an arbitrary step-indexed invariant along the main loop. -/
theorem runSteps_inv {α : Type} [LinearOrderedField α] {cfg : Config α}
    {A : Agent α} {B N : ℕ} {hed c lb ub : T3 α} {ps : List (String × T3 α)}
    {pp : List (TData α)} {T : ℕ} (P : ℕ → LoopState α → Prop)
    (hstep : ∀ t s s2, t < T → P t s →
      gymStep cfg A B N hed c lb ub ps pp t s = .ok s2 → P (t + 1) s2) :
    ∀ k t s s2, t + k ≤ T → P t s →
      runSteps cfg A B N hed c lb ub ps pp k t s = .ok s2 → P (t + k) s2 := by
  intro k
  induction k with
  | zero =>
    intro t s s2 hle hP hr
    simp only [runSteps] at hr
    cases hr
    simpa using hP
  | succ k ih =>
    intro t s s2 hle hP hr
    unfold runSteps at hr
    rcases hg : gymStep cfg A B N hed c lb ub ps pp t s with e | s1
    · rw [hg] at hr; exact absurd hr (by simp)
    · rw [hg] at hr
      have h2 := ih (t + 1) s1 s2 (by omega) (hstep t s s1 (by omega) hP hg) hr
      have he : t + 1 + k = t + (k + 1) := by omega
      rwa [he] at h2

/-- A verified payoff has batch length `B`. -/
theorem payVerify_ok_length {α : Type} [Zero α] {p : TData α} {B : ℕ} {pay : T1 α}
    (h : payVerify p B = .ok pay) : pay.length = B := by
  unfold payVerify at h
  split at h
  · split at h
    · cases h
      rename_i hb
      simpa using hb
    · exact absurd h (by simp)
  · exact absurd h (by simp)

/-- Inversion of a successful forward call: the validated geometry, checks,
features, loop run, and the assembled result. -/
theorem gymCall_ok_elim {α : Type} [LinearOrderedField α] {cfg : Config α}
    {A : Agent α} {U U0 : Utility α} {d : GymData α} {r : Result α}
    (h : gymCall cfg A U U0 d = .ok r) :
    ∃ hg B T N c ub lb pay ps,
      d.hedges = TData.t3 hg ∧ shape3 hg = some (B, T, N) ∧
      d.cost = TData.t3 c ∧ isShape3 c B T N = true ∧
      d.ubnd_a = TData.t3 ub ∧ isShape3 ub B T N = true ∧
      d.lbnd_a = TData.t3 lb ∧ isShape3 lb B T N = true ∧
      payVerify d.payoff B = .ok pay ∧
      gymFeatures d.per_step d.per_path T = .ok (ps, []) ∧
      T ≠ 0 ∧
      ∃ sT, runSteps cfg A B N hg c lb ub ps [] T 0 (initState A B N) = .ok sT ∧
        r = mkResult U U0 (featuresT0 [] ps) pay sT := by
  unfold gymCall at h
  split at h
  case _ hg heq =>
    split at h
    case _ B T N hsh =>
      split at h
      case _ c heqc =>
        split at h
        case _ hc =>
          split at h
          case _ ub hequ =>
            split at h
            case _ hu =>
              split at h
              case _ lb heql =>
                split at h
                case _ hl =>
                  split at h
                  case _ pay hpay =>
                    split at h
                    case _ ps pp hfeat =>
                      split at h
                      case _ hT0 => exact absurd h (by simp)
                      case _ hT0 =>
                        split at h
                        case _ e hrun => exact absurd h (by simp)
                        case _ sT hrun =>
                          split at h
                          case _ e hsub => exact absurd h (by simp)
                          case _ ppm hsub =>
                            cases pp with
                            | cons y ys => simp [setSubscriptMap] at hsub
                            | nil =>
                              simp only [setSubscriptMap] at hsub
                              cases hsub
                              cases h
                              refine ⟨hg, B, T, N, c, ub, lb, pay, ps, heq, hsh,
                                heqc, hc, hequ, hu, heql, hl, hpay, hfeat,
                                by simpa using hT0, sT, hrun, rfl⟩
                    case _ e hfeat => exact absurd h (by simp)
                  case _ e hpay => exact absurd h (by simp)
                case _ hl => exact absurd h (by simp)
              case _ => exact absurd h (by simp)
            case _ hu => exact absurd h (by simp)
          case _ => exact absurd h (by simp)
        case _ hc => exact absurd h (by simp)
      case _ => exact absurd h (by simp)
    case _ => exact absurd h (by simp)
  case _ => exact absurd h (by simp)

/-- C2: for every completed rollout, the returned bundle satisfies
`loss = -(utility + utility0)` and `gains = payoff + pnl - cost` exactly,
elementwise, whatever values the collaborators produced (lines 213-222). -/
theorem C2_loss_and_gains {α : Type} [LinearOrderedField α] (cfg : Config α)
    (A : Agent α) (U U0 : Utility α) (d : GymData α) (r : Result α)
    (h : gymCall cfg A U U0 d = .ok r) :
    r.loss = List.zipWith (fun u v => -(u + v)) r.utility r.utility0 ∧
    r.gains = zipWith3 (fun p pn cc => p + pn - cc) r.payoff r.pnl r.cost := by
  obtain ⟨hg, B, T, N, c, ub, lb, pay, ps, h1, h2, h3, h4, h5, h6, h7, h8, h9,
    h10, hT0, sT, hrun, hr⟩ := gymCall_ok_elim h
  subst hr
  constructor
  · simp only [mkResult]
    congr 1
    funext x y
    ring
  · simp only [mkResult]

/-- The shape-check-and-broadcast of lines 174-175 yields a `[B,N]` action
from any accepted policy output. -/
theorem broadcast_shape {α : Type} {aRaw : T2 α} {B N : ℕ}
    (hsh : (isShape2 aRaw B N || isShape2 aRaw 1 N) = true) :
    isShape2 (if (aRaw.length == 1 : Bool) = true then
      List.replicate B (aRaw.headD []) else aRaw) B N = true := by
  rw [Bool.or_eq_true] at hsh
  by_cases hb : (aRaw.length == 1 : Bool) = true
  · rw [if_pos hb]
    have h1 : aRaw.length = 1 := by simpa using hb
    obtain ⟨row, hrow⟩ : ∃ row, aRaw = [row] := by
      cases aRaw with
      | nil => simp at h1
      | cons r rest =>
        cases rest with
        | nil => exact ⟨r, rfl⟩
        | cons _ _ => simp at h1
    subst hrow
    rcases hsh with h2 | h2 <;> rw [isShape2_iff] at h2 <;> rw [isShape2_iff] <;>
      refine ⟨by simp, ?_⟩ <;> intro r hr <;>
      rw [List.eq_of_mem_replicate hr] <;> simpa using h2.2 row (by simp)
  · rw [if_neg hb]
    rcases hsh with h2 | h2
    · exact h2
    · rw [isShape2_iff] at h2
      exact absurd (by simp [h2.1]) hb

/-- Appending one recorded `[B,N]` action column to a `[B,m,N]` history
gives a `[B,m+1,N]` history (line 182, `t > 0` branch). -/
theorem appendCol_shape {α : Type} {x : T3 α} {y : T2 α} {B m N : ℕ}
    (hx : isShape3 x B m N = true) (hy : isShape2 y B N = true) :
    isShape3 (List.zipWith (fun q r => q ++ r) x (y.map (fun r => [r])))
      B (m + 1) N = true := by
  rw [isShape3_iff] at hx
  rw [isShape2_iff] at hy
  rw [isShape3_iff]
  constructor
  · rw [List.length_zipWith, List.length_map, hx.1, hy.1]
    omega
  · intro q hq
    obtain ⟨q1, hq1, w, hw, rfl⟩ := mem_zipWith _ _ _ _ hq
    obtain ⟨r, hr, rfl⟩ := List.mem_map.mp hw
    obtain ⟨hq1m, hq1N⟩ := hx.2 q1 hq1
    refine ⟨by simp [hq1m], ?_⟩
    intro rr hrr
    rcases List.mem_append.mp hrr with h | h
    · exact hq1N rr h
    · rw [List.mem_singleton.mp h]
      exact hy.2 r hr

/-- The fresh history of the `t = 0` branch of line 182 is `[B,1,N]`. -/
theorem mapCol_shape {α : Type} {y : T2 α} {B N : ℕ}
    (hy : isShape2 y B N = true) :
    isShape3 (y.map (fun r => [r])) B 1 N = true := by
  rw [isShape2_iff] at hy
  rw [isShape3_iff]
  refine ⟨by simp [hy.1], ?_⟩
  intro q hq
  obtain ⟨r, hr, rfl⟩ := List.mem_map.mp hq
  refine ⟨by simp, ?_⟩
  intro rr hrr
  rw [List.mem_singleton.mp hrr]
  exact hy.2 r hr

/-- A step slice of a well-shaped rank-3 tensor has the batch length. -/
theorem slice3_length {α : Type} (x : T3 α) (t : ℕ) :
    (slice3 x t).length = x.length := by simp [slice3]

/-- One loop iteration preserves the shape invariant. -/
theorem gymStep_shape {α : Type} [LinearOrderedField α] {cfg : Config α}
    {A : Agent α} {B T N : ℕ} {hed c lb ub : T3 α} {ps : List (String × T3 α)}
    {pp : List (TData α)} {t : ℕ} {s s2 : LoopState α}
    (hhed : isShape3 hed B T N = true) (hcs : isShape3 c B T N = true)
    (hlb : isShape3 lb B T N = true) (hub : isShape3 ub B T N = true)
    (ht : t < T) (hs : SInv B N t s)
    (h : gymStep cfg A B N hed c lb ub ps pp t s = .ok s2) :
    SInv B N (t + 1) s2 := by
  obtain ⟨hpp, live, a2, hsh, hcl, hpnl, hcost, hact, hacts⟩ := gymStep_ok_elim h
  obtain ⟨hout, _, _, _⟩ := clipActions_ok_elim hcl
  have ha2 : isShape2 a2 B N = true := by
    rw [hout]
    exact zipT2With3_shape _ (broadcast_shape hsh) (slice3_shape hlb ht)
      (slice3_shape hub ht)
  have ha2len : a2.length = B := (isShape2_iff.mp ha2).1
  obtain ⟨hp, hc2, hac⟩ := hs
  refine ⟨?_, ?_, ?_⟩
  · rw [hpnl, List.length_zipWith, List.length_zipWith, hp, ha2len,
      slice3_length, (isShape3_iff.mp hhed).1]
    omega
  · rw [hcost, List.length_zipWith, List.length_zipWith, hc2, ha2len,
      slice3_length, (isShape3_iff.mp hcs).1]
    omega
  · rw [hacts]
    by_cases ht0 : t > 0
    · rw [if_pos ht0]
      have hmax : max t 1 = t := by omega
      rw [hmax] at hac
      have h2 := appendCol_shape hac ha2
      have hmax2 : max (t + 1) 1 = t + 1 := by omega
      rwa [hmax2]
    · rw [if_neg ht0]
      have ht0e : t = 0 := by omega
      have h2 := mapCol_shape ha2
      have hmax2 : max (t + 1) 1 = 1 := by omega
      rwa [hmax2]

/-- The shape invariant holds at loop start. -/
theorem initState_shape {α : Type} [LinearOrderedField α] (A : Agent α)
    (B N : ℕ) : SInv B N 0 (initState (α := α) A B N) := by
  refine ⟨by simp [initState], by simp [initState], ?_⟩
  rw [isShape3_iff]
  refine ⟨by simp [initState], ?_⟩
  intro q hq
  simp only [initState] at hq
  rw [List.eq_of_mem_replicate hq]
  refine ⟨by simp, ?_⟩
  intro r hr
  rw [List.mem_singleton.mp hr]
  simp

/-- After a full successful run of the loop the terminal `pnl` and `cost`
have batch length `B` and the history has shape `[B,T,N]`. -/
theorem runSteps_shape {α : Type} [LinearOrderedField α] {cfg : Config α}
    {A : Agent α} {B T N : ℕ} {hed c lb ub : T3 α} {ps : List (String × T3 α)}
    {pp : List (TData α)} {sT : LoopState α}
    (hhed : isShape3 hed B T N = true) (hcs : isShape3 c B T N = true)
    (hlb : isShape3 lb B T N = true) (hub : isShape3 ub B T N = true)
    (hT : 1 ≤ T)
    (h : runSteps cfg A B N hed c lb ub ps pp T 0 (initState A B N) = .ok sT) :
    sT.pnl.length = B ∧ sT.cost.length = B ∧ isShape3 sT.actions B T N = true := by
  have h2 := runSteps_inv (SInv B N)
    (fun t s s2 ht hP hstep => gymStep_shape hhed hcs hlb hub ht hP hstep)
    T 0 (initState A B N) sT (by omega) (initState_shape A B N) h
  obtain ⟨hp, hc2, hac⟩ := h2
  have hmax : max (0 + T) 1 = T := by omega
  rw [hmax] at hac
  exact ⟨hp, hc2, hac⟩

/-- A successful geometry read means the hedges tensor has that shape. -/
theorem shape3_ok {α : Type} {x : T3 α} {B T N : ℕ}
    (h : shape3 x = some (B, T, N)) : isShape3 x B T N = true := by
  simp only [shape3] at h
  split at h
  · rename_i hx
    simp only [Option.some.injEq, Prod.mk.injEq] at h
    obtain ⟨h1, h2, h3⟩ := h
    rw [← h1, ← h2, ← h3]
    exact hx
  · exact absurd h (by simp)

/-- Multiplying a tensor elementwise by the scalar zero (the `pnl*0.` and
`cost*0.` of lines 208-209) yields the zero tensor of the same shape. -/
theorem map_mul_zero {α : Type} [MulZeroClass α] (v : List α) :
    v.map (fun x => x * 0) = List.replicate v.length 0 := by
  induction v with
  | nil => simp
  | cons a v ih => simp [ih, List.replicate_succ]

/-- C8: for every valid completed call with geometry `B, T, N`, the result's
`actions` history has shape `[B,T,N]` and every per-path scalar field has
shape `[B]` (the two utility collaborators honouring their §6 contract
`payoff[B] ↦ utility[B]`). -/
theorem C8_result_shapes {α : Type} [LinearOrderedField α] (cfg : Config α)
    (A : Agent α) (U U0 : Utility α) (d : GymData α) (r : Result α)
    (hgm : T3 α) (B T N : ℕ)
    (hh : d.hedges = TData.t3 hgm) (hs : shape3 hgm = some (B, T, N))
    (hU : ∀ f p pn cc, (U f p pn cc).length = p.length)
    (hU0 : ∀ f p pn cc, (U0 f p pn cc).length = p.length)
    (h : gymCall cfg A U U0 d = .ok r) :
    isShape3 r.actions B T N = true ∧ r.loss.length = B ∧
    r.utility.length = B ∧ r.utility0.length = B ∧ r.gains.length = B ∧
    r.payoff.length = B ∧ r.pnl.length = B ∧ r.cost.length = B := by
  obtain ⟨hg2, B2, T2, N2, c, ub, lb, pay, ps, e1, e2, e3, e4, e5, e6, e7, e8,
    e9, e10, hT0, sT, hrun, hr⟩ := gymCall_ok_elim h
  cases hh.symm.trans e1
  have htrip := hs.symm.trans e2
  simp only [Option.some.injEq, Prod.mk.injEq] at htrip
  obtain ⟨rfl, rfl, rfl⟩ := htrip
  have hhed := shape3_ok e2
  obtain ⟨hplen, hclen, hashape⟩ :=
    runSteps_shape hhed e4 e8 e6 (by omega) hrun
  have hpaylen : pay.length = B := payVerify_ok_length e9
  subst hr
  simp only [mkResult]
  refine ⟨hashape, ?_, ?_, ?_, ?_, hpaylen, hplen, hclen⟩
  · rw [List.length_zipWith, hU _ _ _ _, hU0 _ _ _ _, hpaylen]
    omega
  · rw [hU _ _ _ _, hpaylen]
  · rw [hU0 _ _ _ _, hpaylen]
  · rw [zipWith3_length, hpaylen, hplen, hclen]
    omega

/-- The baseline utility of a completed call: `utility0` is the `U0`
collaborator applied to the same time-zero features and payoff but with
`pnl` and `cost` replaced by exact zero tensors of batch shape `[B]`. -/
theorem gymCall_utility0 {α : Type} [LinearOrderedField α] {cfg : Config α}
    {A : Agent α} {U U0 : Utility α} {d : GymData α} {r : Result α}
    {hgm : T3 α} {B T N : ℕ} {ps : List (String × T3 α)} {pay : T1 α}
    (hh : d.hedges = TData.t3 hgm) (hs : shape3 hgm = some (B, T, N))
    (hfeat : gymFeatures d.per_step d.per_path T = .ok (ps, []))
    (hpay : payVerify d.payoff B = .ok pay)
    (h : gymCall cfg A U U0 d = .ok r) :
    r.utility0 =
      U0 (featuresT0 [] ps) pay (List.replicate B 0) (List.replicate B 0) := by
  obtain ⟨hg2, B2, T2, N2, c, ub, lb, pay2, ps2, e1, e2, e3, e4, e5, e6, e7, e8,
    e9, e10, hT0, sT, hrun, hr⟩ := gymCall_ok_elim h
  cases hh.symm.trans e1
  have htrip := hs.symm.trans e2
  simp only [Option.some.injEq, Prod.mk.injEq] at htrip
  obtain ⟨rfl, rfl, rfl⟩ := htrip
  have hpay2 := hpay.symm.trans e9
  simp only [Except.ok.injEq] at hpay2
  subst hpay2
  have hps2 := hfeat.symm.trans e10
  simp only [Except.ok.injEq, Prod.mk.injEq] at hps2
  obtain ⟨rfl, -⟩ := hps2
  have hhed := shape3_ok e2
  obtain ⟨hplen, hclen, -⟩ := runSteps_shape hhed e4 e8 e6 (by omega) hrun
  subst hr
  simp only [mkResult]
  rw [map_mul_zero, map_mul_zero, hplen, hclen]

/-- C9: the baseline `utility0` is the independently parameterized `U0`
collaborator invoked with the same payoff and time-zero features as the
hedged utility but with `pnl` and `cost` replaced by exact zeros of batch
shape (lines 206-209); hence two rollouts of the same data that differ in
clip configuration, policy, and hedged-utility instance report the same
`utility0` — it does not depend on the hedging trajectory. -/
theorem C9_baseline_utility0 {α : Type} [LinearOrderedField α]
    (cfg1 cfg2 : Config α) (A1 A2 : Agent α) (U1 U2 U0 : Utility α)
    (d : GymData α) (r1 r2 : Result α) (hgm : T3 α) (B T N : ℕ)
    (ps : List (String × T3 α)) (pay : T1 α)
    (hh : d.hedges = TData.t3 hgm) (hs : shape3 hgm = some (B, T, N))
    (hfeat : gymFeatures d.per_step d.per_path T = .ok (ps, []))
    (hpay : payVerify d.payoff B = .ok pay)
    (h1 : gymCall cfg1 A1 U1 U0 d = .ok r1)
    (h2 : gymCall cfg2 A2 U2 U0 d = .ok r2) :
    r1.utility0 =
      U0 (featuresT0 [] ps) pay (List.replicate B 0) (List.replicate B 0) ∧
    r1.utility0 = r2.utility0 := by
  have hu1 := gymCall_utility0 hh hs hfeat hpay h1
  have hu2 := gymCall_utility0 hh hs hfeat hpay h2
  exact ⟨hu1, hu1.trans hu2.symm⟩

/-- Unfolding of the scalar-bound tensor assertion. -/
theorem allT2_iff {α : Type} {p : α → Bool} {x : T2 α} :
    allT2 p x = true ↔ ∀ r ∈ x, ∀ a ∈ r, p a = true := by
  simp [allT2, List.all_eq_true]

/-- Broadcasting a `[B,N]` tensor that is already batch-replicated is the
identity. -/
theorem broadcast_replicate {α : Type} (B : ℕ) (row : List α) :
    (if ((List.replicate B row).length == 1 : Bool) = true then
      List.replicate B ((List.replicate B row).headD []) else List.replicate B row) =
    List.replicate B row := by
  cases B with
  | zero => simp
  | succ n =>
    cases n with
    | zero => simp [List.replicate_succ]
    | succ m => simp

/-- Hard-clipping the zero action inside admissible bounds returns zero. -/
theorem clip1_hard_zero {α : Type} [LinearOrderedField α] {cfg : Config α}
    (hhard : cfg.hard_clip = true) {l u : α} (hu : 0 ≤ u) (hl : l ≤ 0) :
    clip1 cfg 0 l u = 0 := by
  unfold clip1
  rw [if_pos hhard, min_eq_left hu, max_eq_left hl]

/-- A zipped product against an all-zero list sums to zero
(the `pnl` contribution of line 186 under zero actions). -/
theorem zip_mul_sum_zero {α : Type} [LinearOrderedField α] :
    ∀ (ar hr : List α), (∀ a ∈ ar, a = 0) →
      (List.zipWith (fun a h => a * h) ar hr).sum = 0
  | [], _, _ => by simp
  | _ :: _, [], _ => by simp
  | a :: ar, h :: hr, hz => by
    have ha : a = 0 := hz a (by simp)
    simp [ha, zip_mul_sum_zero ar hr (fun x hx => hz x (by simp [hx]))]

/-- A zipped cost term against an all-zero action list sums to zero
(the `cost` contribution of line 185 under zero actions). -/
theorem zip_abs_mul_sum_zero {α : Type} [LinearOrderedField α] :
    ∀ (ar cr : List α), (∀ a ∈ ar, a = 0) →
      (List.zipWith (fun a cc => |a| * cc) ar cr).sum = 0
  | [], _, _ => by simp
  | _ :: _, [], _ => by simp
  | a :: ar, c :: cr, hz => by
    have ha : a = 0 := hz a (by simp)
    simp [ha, zip_abs_mul_sum_zero ar cr (fun x hx => hz x (by simp [hx]))]

/-- `payoff + 0 - 0 = payoff`, elementwise over the batch. -/
theorem zipWith3_gains_zero {α : Type} [LinearOrderedField α] :
    ∀ (p : List α),
      zipWith3 (fun a b c => a + b - c) p (List.replicate p.length 0)
        (List.replicate p.length 0) = p
  | [] => by simp [zipWith3]
  | a :: p => by
    simp [List.replicate_succ, zipWith3, zipWith3_gains_zero p]

/-- In hard-clip mode, clipping the zero `[B,N]` action against asserted
bounds yields a tensor of zeros. -/
theorem clip_zero_all {α : Type} [LinearOrderedField α] {cfg : Config α}
    (hhard : cfg.hard_clip = true) {B N : ℕ} {lsl usl : T2 α}
    (hb2 : allT2 (fun u => decide ((0 : α) ≤ u)) usl = true)
    (hb3 : allT2 (fun l => decide (l ≤ (0 : α))) lsl = true) :
    ∀ z ∈ zipT2With3 (clip1 cfg) (List.replicate B (List.replicate N 0)) lsl usl,
      ∀ x ∈ z, x = 0 := by
  intro z hz x hx
  obtain ⟨ar, har, lr, hlr, ur, hur, rfl⟩ := mem_zipWith3 _ _ _ _ _ hz
  obtain ⟨a, ha, lv, hlv, uv, huv, rfl⟩ := mem_zipWith3 _ _ _ _ _ hx
  rw [List.eq_of_mem_replicate har] at ha
  rw [List.eq_of_mem_replicate ha]
  have hu : (0 : α) ≤ uv := by
    have := allT2_iff.mp hb2 ur hur uv huv
    simpa using this
  have hl : lv ≤ (0 : α) := by
    have := allT2_iff.mp hb3 lr hlr lv hlv
    simpa using this
  exact clip1_hard_zero hhard hu hl

/-- C1 (amended): in HARD-clip mode, if the policy returns the zero raw
action at every step then the rollout ends with `pnl = 0` and `cost = 0` on
every path and the reported gains equal the payoff exactly.  (In the default
soft-clip mode the squash maps a zero raw action to a non-zero clipped
action — see the counterexample — so the claim holds only for hard clip.) -/
theorem C1_hard_zero_action {α : Type} [LinearOrderedField α] (cfg : Config α)
    (A : Agent α) (U U0 : Utility α) (d : GymData α) (r : Result α)
    (hgm : T3 α) (B T N : ℕ)
    (hh : d.hedges = TData.t3 hgm) (hs : shape3 hgm = some (B, T, N))
    (hhard : cfg.hard_clip = true)
    (hA : ∀ f, (A.act f).1 = List.replicate B (List.replicate N 0))
    (h : gymCall cfg A U U0 d = .ok r) :
    r.pnl = List.replicate B 0 ∧ r.cost = List.replicate B 0 ∧
    r.gains = r.payoff := by
  obtain ⟨hg2, B2, T2, N2, c, ub, lb, pay, ps, e1, e2, e3, e4, e5, e6, e7, e8,
    e9, e10, hT0, sT, hrun, hr⟩ := gymCall_ok_elim h
  cases hh.symm.trans e1
  have htrip := hs.symm.trans e2
  simp only [Option.some.injEq, Prod.mk.injEq] at htrip
  obtain ⟨rfl, rfl, rfl⟩ := htrip
  have hhed := shape3_ok e2
  -- invariant: shapes plus all-zero pnl and cost
  have hinv := runSteps_inv
    (fun t s => SInv B N t s ∧ (∀ x ∈ s.pnl, x = 0) ∧ (∀ x ∈ s.cost, x = 0))
    (fun t s s2 ht hP hstep => by
      obtain ⟨hSI, hpz, hcz⟩ := hP
      refine ⟨gymStep_shape hhed e4 e8 e6 ht hSI hstep, ?_, ?_⟩
      · obtain ⟨hpp, live, a2, hsh, hcl, hpnl, hcost, hact, hacts⟩ :=
          gymStep_ok_elim hstep
        obtain ⟨hout, hb1, hb2, hb3⟩ := clipActions_ok_elim hcl
        have ha2z : ∀ z ∈ a2, ∀ x ∈ z, x = 0 := by
          rw [hout, hA live, broadcast_replicate]
          exact clip_zero_all hhard hb2 hb3
        intro x hx
        rw [hpnl] at hx
        obtain ⟨p, hp, y, hy, rfl⟩ := mem_zipWith _ _ _ _ hx
        obtain ⟨ar, har, hrow, hhrow, rfl⟩ := mem_zipWith _ _ _ _ hy
        rw [hpz p hp, zip_mul_sum_zero ar hrow (ha2z ar har), add_zero]
      · obtain ⟨hpp, live, a2, hsh, hcl, hpnl, hcost, hact, hacts⟩ :=
          gymStep_ok_elim hstep
        obtain ⟨hout, hb1, hb2, hb3⟩ := clipActions_ok_elim hcl
        have ha2z : ∀ z ∈ a2, ∀ x ∈ z, x = 0 := by
          rw [hout, hA live, broadcast_replicate]
          exact clip_zero_all hhard hb2 hb3
        intro x hx
        rw [hcost] at hx
        obtain ⟨p, hp, y, hy, rfl⟩ := mem_zipWith _ _ _ _ hx
        obtain ⟨ar, har, crow, hcrow, rfl⟩ := mem_zipWith _ _ _ _ hy
        rw [hcz p hp, zip_abs_mul_sum_zero ar crow (ha2z ar har), add_zero])
    T 0 (initState A B N) sT (by omega)
    ⟨initState_shape A B N, by simp [initState], by simp [initState]⟩ hrun
  obtain ⟨⟨hplen, hclen, -⟩, hpz, hcz⟩ := hinv
  have hpnl0 : sT.pnl = List.replicate B 0 :=
    List.eq_replicate_iff.mpr ⟨hplen, hpz⟩
  have hcost0 : sT.cost = List.replicate B 0 :=
    List.eq_replicate_iff.mpr ⟨hclen, hcz⟩
  have hpaylen : pay.length = B := payVerify_ok_length e9
  subst hr
  simp only [mkResult]
  refine ⟨hpnl0, hcost0, ?_⟩
  rw [hpnl0, hcost0, ← hpaylen, zipWith3_gains_zero]

/-- C1 counterexample: with the source's default soft-clip configuration
(`hard_clip=False`, `outer_clip=True`, cut-off 10, hinge softness 1) and the
policy returning the zero raw action at the single step, the rollout over
`dataR` (bounds `[0,1]`, hedge return 1, zero cost) completes with
`pnl = [softclip(0)]`, and `softclip(0) ≠ 0` — so `pnl = 0`, `cost = 0`,
`gains = payoff` does NOT hold in every clipping mode. -/
theorem C1_counterexample :
    (gymCall cfgR agentZeroR UzeroR UzeroR dataR).map Result.pnl =
      .ok [realSoftclip 1 0] ∧ realSoftclip 1 0 ≠ 0 := by
  constructor
  · norm_num [gymCall, shape3, isShape3, isShape2, slice3, gymFeatures,
      perStepNorm, perPathNorm, setSubscriptMap, payVerify, flattenPayoff,
      initState, runSteps, gymStep, liveFeatures, updAll, updF, clipActions,
      all2, allT2, zipT2With3, zipWith3, clip1, zipT2, mkResult, featuresT0,
      cfgR, agentZeroR, UzeroR, dataR, min_def, max_def, Except.map]
  · exact (realSoftclip_mem 1 0 one_pos).1.ne'

/-- Witness for C1 (amended): the zero policy in hard-clip mode over the
concrete batch `dataW`. -/
theorem C1_witness :
    resultZero.pnl = List.replicate 1 0 ∧ resultZero.cost = List.replicate 1 0 ∧
    resultZero.gains = resultZero.payoff :=
  C1_hard_zero_action cfgHard agentZero Uconst5 Ulen9 dataW resultZero
    [[[2]]] 1 1 1 rfl rfl rfl (fun _ => rfl)
    (by norm_num [gymCall, shape3, isShape3, isShape2, slice3, gymFeatures,
      perStepNorm, perPathNorm, setSubscriptMap, payVerify, flattenPayoff,
      initState, runSteps, gymStep, liveFeatures, updAll, updF, clipActions,
      all2, allT2, zipT2With3, zipWith3, clip1, zipT2, mkResult, featuresT0,
      cfgHard, agentZero, Uconst5, Ulen9, dataW, resultZero, abs_of_nonneg])

/-- `_clip_actions` only ever faults with the bound-assertion fault. -/
theorem clipActions_error_bounds {α : Type} [LinearOrderedField α]
    {cfg : Config α} {acts ls us : T2 α} {e : Err}
    (h : clipActions cfg acts ls us = .error e) : e = .boundsError := by
  unfold clipActions at h
  split at h
  · split at h
    · split at h
      · exact absurd h (by simp)
      · cases h; rfl
    · cases h; rfl
  · cases h; rfl

/-- The live feature dictionary ignores the policy callable, so it is
unchanged under the batch-broadcast wrapper. -/
theorem liveFeatures_broadcastB {α : Type} (B : ℕ) (A : Agent α)
    (ps : List (String × T3 α)) (ppm : List (String × TData α)) (t : ℕ)
    (s : LoopState α) :
    liveFeatures (broadcastB B A) ps ppm t s = liveFeatures A ps ppm t s := rfl

/-- C7: at every step the rollout accepts a policy action of shape `[B,N]`
or `[1,N]` — any other shape is the fatal shape-mismatch fault, an accepted
shape never produces that fault — and a `[1,N]` action is processed exactly
as its `[B,N]` broadcast (clipped, accumulated and recorded identically). -/
theorem C7_action_shape_contract {α : Type} [LinearOrderedField α]
    (cfg : Config α) (A : Agent α) (B N : ℕ) (hed c lb ub : T3 α)
    (ps : List (String × T3 α)) (t : ℕ) (s : LoopState α) (aRaw : T2 α)
    (hact : (A.act (liveFeatures A ps [] t s)).1 = aRaw) :
    (¬ (isShape2 aRaw B N || isShape2 aRaw 1 N) = true →
      gymStep cfg A B N hed c lb ub ps [] t s = .error .shapeError) ∧
    ((isShape2 aRaw B N || isShape2 aRaw 1 N) = true →
      gymStep cfg A B N hed c lb ub ps [] t s ≠ .error .shapeError) ∧
    (isShape2 aRaw 1 N = true →
      gymStep cfg A B N hed c lb ub ps [] t s =
        gymStep cfg (broadcastB B A) B N hed c lb ub ps [] t s) := by
  refine ⟨?_, ?_, ?_⟩
  · intro hno
    unfold gymStep
    simp only [setSubscriptMap]
    rw [hact, if_neg hno]
  · intro hyes
    unfold gymStep
    simp only [setSubscriptMap]
    rw [hact, if_pos hyes]
    rcases hcl : clipActions cfg
        (if (aRaw.length == 1) = true then List.replicate B (aRaw.headD [])
         else aRaw) (slice3 lb t) (slice3 ub t) with e | a2
    · rw [clipActions_error_bounds hcl]
      simp
    · simp
  · intro h1
    have hlen : aRaw.length = 1 := (isShape2_iff.mp h1).1
    obtain ⟨row, hrow⟩ : ∃ row, aRaw = [row] := by
      cases aRaw with
      | nil => simp at hlen
      | cons r rest =>
        cases rest with
        | nil => exact ⟨r, rfl⟩
        | cons _ _ => simp at hlen
    subst hrow
    have hrowN : row.length = N := (isShape2_iff.mp h1).2 row (by simp)
    unfold gymStep
    simp only [setSubscriptMap]
    rw [liveFeatures_broadcastB]
    have hrep : isShape2 (List.replicate B row) B N = true := by
      rw [isShape2_iff]
      refine ⟨by simp, ?_⟩
      intro r hr
      rw [List.eq_of_mem_replicate hr]
      exact hrowN
    simp only [broadcastB, hact, h1, hrep, Bool.or_true, Bool.true_or, if_true,
      List.headD_cons, broadcast_replicate, List.length_cons, List.length_nil,
      List.length_singleton, beq_self_eq_true]

/-- Witness for C7: the `[1,2]` policy action is rejected with the fatal
shape fault on a one-instrument batch. -/
theorem C7_witness :
    gymStep cfgHard agentBadShape 1 1 [[[2]]] [[[1]]] [[[-1]]] [[[1]]] [] [] 0
      (initState agentBadShape 1 1) = .error .shapeError :=
  (C7_action_shape_contract cfgHard agentBadShape 1 1 [[[2]]] [[[1]]] [[[-1]]]
    [[[1]]] [] 0 (initState agentBadShape 1 1) [[1, 2]] rfl).1 (by decide)

/-- Flattening a wrapped `[B,1]` payoff and verifying it is the same as
verifying the corresponding `[B]` payoff (lines 138 and 142). -/
theorem payVerify_wrap {α : Type} [LinearOrderedField α] (p : T1 α) (B : ℕ) :
    payVerify (TData.t2 (p.map (fun x => [x]))) B = payVerify (TData.t1 p) B := by
  by_cases hp : p.length = B
  · have hsh : isShape2 (p.map (fun x => [x])) B 1 = true := by
      rw [isShape2_iff]
      refine ⟨by simp [hp], ?_⟩
      intro r hr
      obtain ⟨x, -, rfl⟩ := List.mem_map.mp hr
      rfl
    have hmm : List.map ((fun r : List α => r.head?.getD 0) ∘ fun x => [x]) p = p := by
      have h2 : ((fun r : List α => r.head?.getD 0) ∘ fun x => [x]) = (id : α → α) := by
        funext x
        simp
      rw [h2, List.map_id]
    simp [payVerify, flattenPayoff, hsh, hmm]
  · have hsh : isShape2 (p.map (fun x => [x])) B 1 = false := by
      rw [← Bool.not_eq_true]
      intro hc
      rw [isShape2_iff] at hc
      exact hp (by simpa using hc.1)
    have hb : (p.length == B) = false := by simpa using hp
    simp [payVerify, flattenPayoff, hsh, hb]

/-- A payoff whose shape is neither `[B]` nor `[B,1]` fails verification
with the shape fault. -/
theorem payVerify_fail {α : Type} [LinearOrderedField α] {p0 : TData α} {B : ℕ}
    (h : payShapeOK p0 B = false) : payVerify p0 B = .error .shapeError := by
  cases p0 with
  | t1 v =>
    simp only [payShapeOK] at h
    simp [payVerify, flattenPayoff, h]
  | t2 q =>
    simp only [payShapeOK] at h
    simp [payVerify, flattenPayoff, h]
  | t3 w => simp [payVerify, flattenPayoff]
  | str s => simp [payVerify, flattenPayoff]

/-- C10: a payoff supplied as `[B,1]` is not rejected — the whole forward
call behaves exactly as if the flattened `[B]` payoff had been supplied
(line 138) — and, once the earlier market checks pass, a payoff of any
shape other than `[B]` and `[B,1]` aborts the call with the fatal
shape-mismatch fault (line 142). -/
theorem C10_payoff_flatten {α : Type} [LinearOrderedField α] (cfg : Config α)
    (A : Agent α) (U U0 : Utility α) (d : GymData α) (p : T1 α) (hgm : T3 α)
    (B T N : ℕ) (c ub lb : T3 α) :
    (gymCall cfg A U U0 { d with payoff := TData.t2 (p.map (fun x => [x])) } =
      gymCall cfg A U U0 { d with payoff := TData.t1 p }) ∧
    (d.hedges = TData.t3 hgm → shape3 hgm = some (B, T, N) →
      d.cost = TData.t3 c → isShape3 c B T N = true →
      d.ubnd_a = TData.t3 ub → isShape3 ub B T N = true →
      d.lbnd_a = TData.t3 lb → isShape3 lb B T N = true →
      payShapeOK d.payoff B = false →
      gymCall cfg A U U0 d = .error .shapeError) := by
  constructor
  · unfold gymCall
    dsimp only
    simp only [payVerify_wrap]
  · intro e1 e2 e3 e4 e5 e6 e7 e8 hbad
    simp only [gymCall, e1, e2, e3, e4, e5, e6, e7, e8, if_true,
      payVerify_fail hbad]

/-- Witness for C10: a `[2]` payoff against a batch of one path is the
fatal shape fault. -/
theorem C10_witness :
    gymCall cfgHard agentHalf Uconst5 Uconst7
      { dataW with payoff := TData.t1 [3, 4] } = .error .shapeError :=
  (C10_payoff_flatten cfgHard agentHalf Uconst5 Uconst7
    { dataW with payoff := TData.t1 [3, 4] } [] [[[2]]] 1 1 1 [[[1]]] [[[1]]]
    [[[-1]]]).2 rfl rfl rfl (by decide) rfl (by decide) rfl (by decide)
    (by decide)

/-- Witness for C2: the concrete hard-clip rollout `resultHalf`. -/
theorem C2_witness :
    resultHalf.loss =
      List.zipWith (fun u v => -(u + v)) resultHalf.utility resultHalf.utility0 ∧
    resultHalf.gains =
      zipWith3 (fun p pn cc => p + pn - cc) resultHalf.payoff resultHalf.pnl
        resultHalf.cost :=
  C2_loss_and_gains cfgHard agentHalf Ulen Ulen9 dataW resultHalf
    (by norm_num [gymCall, shape3, isShape3, isShape2, slice3, gymFeatures,
      perStepNorm, perPathNorm, setSubscriptMap, payVerify, flattenPayoff,
      initState, runSteps, gymStep, liveFeatures, updAll, updF, clipActions,
      all2, allT2, zipT2With3, zipWith3, clip1, zipT2, mkResult, featuresT0,
      cfgHard, agentHalf, Ulen, Ulen9, dataW, resultHalf, abs_of_nonneg])

/-- Witness for C8: the concrete rollout has geometry `B = T = N = 1` and
all result fields carry it. -/
theorem C8_witness :
    isShape3 resultHalf.actions 1 1 1 = true ∧ resultHalf.loss.length = 1 ∧
    resultHalf.utility.length = 1 ∧ resultHalf.utility0.length = 1 ∧
    resultHalf.gains.length = 1 ∧ resultHalf.payoff.length = 1 ∧
    resultHalf.pnl.length = 1 ∧ resultHalf.cost.length = 1 :=
  C8_result_shapes cfgHard agentHalf Ulen Ulen9 dataW resultHalf [[[2]]] 1 1 1
    rfl rfl (fun _ p _ _ => by simp [Ulen]) (fun _ p _ _ => by simp [Ulen9])
    (by norm_num [gymCall, shape3, isShape3, isShape2, slice3, gymFeatures,
      perStepNorm, perPathNorm, setSubscriptMap, payVerify, flattenPayoff,
      initState, runSteps, gymStep, liveFeatures, updAll, updF, clipActions,
      all2, allT2, zipT2With3, zipWith3, clip1, zipT2, mkResult, featuresT0,
      cfgHard, agentHalf, Ulen, Ulen9, dataW, resultHalf, abs_of_nonneg])

/-- Witness for C9: two rollouts of `dataW` under different policies and
hedged-utility instances report the same baseline `utility0`. -/
theorem C9_witness :
    resultHalf.utility0 =
      Ulen9 (featuresT0 [] []) [3] (List.replicate 1 0) (List.replicate 1 0) ∧
    resultHalf.utility0 = resultZero.utility0 :=
  C9_baseline_utility0 cfgHard cfgHard agentHalf agentZero Ulen Uconst5 Ulen9
    dataW resultHalf resultZero [[[2]]] 1 1 1 [] [3] rfl rfl rfl rfl
    (by norm_num [gymCall, shape3, isShape3, isShape2, slice3, gymFeatures,
      perStepNorm, perPathNorm, setSubscriptMap, payVerify, flattenPayoff,
      initState, runSteps, gymStep, liveFeatures, updAll, updF, clipActions,
      all2, allT2, zipT2With3, zipWith3, clip1, zipT2, mkResult, featuresT0,
      cfgHard, agentHalf, Ulen, Ulen9, dataW, resultHalf, abs_of_nonneg])
    (by norm_num [gymCall, shape3, isShape3, isShape2, slice3, gymFeatures,
      perStepNorm, perPathNorm, setSubscriptMap, payVerify, flattenPayoff,
      initState, runSteps, gymStep, liveFeatures, updAll, updF, clipActions,
      all2, allT2, zipT2With3, zipWith3, clip1, zipT2, mkResult, featuresT0,
      cfgHard, agentZero, Uconst5, Ulen9, dataW, resultZero, abs_of_nonneg])
